import Mathlib

/-!
# Verification of the advanced-audio-recorder recording pipeline

A shallow embedding of the recording session pipeline of the
advanced-audio-recorder plugin (WAV encoding, device stream acquisition with
retry, capture-format resolution, per-track chunk persistence, segmented
buffering, stop/finalize with cleanup and rollback, and unique path
resolution), together with theorems checking the specification's claims
against it.

Conventions: JS `ArrayBuffer`/`Uint8Array` contents are `List Nat` byte
lists; vault paths are `String`s; the injected storage/media backends
(`vault.adapter`, `MediaRecorder.isTypeSupported`, `getUserMedia` outcomes)
are explicit function parameters; `async` control flow is sequentialized
(the per-track promise chain serializes writes, so draining the queue is a
left fold over arrival order).
-/

/-- A byte buffer (JS `ArrayBuffer` / `Uint8Array` contents). -/
abbrev Bytes := List Nat

/-- A vault path. -/
abbrev FsPath := String

namespace WavEncoder

/-- `view.setUint8(offset, v)`: overwrite one byte of the buffer. -/
def setUint8 (buf : Bytes) (offset : Nat) (v : Nat) : Bytes :=
  buf.set offset (v % 256)

/-- `view.setUint16(offset, v, true)`: little-endian 16-bit write. -/
def setUint16 (buf : Bytes) (offset : Nat) (v : Nat) : Bytes :=
  setUint8 (setUint8 buf offset (v % 256)) (offset + 1) (v / 256 % 256)

/-- `view.setUint32(offset, v, true)`: little-endian 32-bit write. -/
def setUint32 (buf : Bytes) (offset : Nat) (v : Nat) : Bytes :=
  setUint8 (setUint8 (setUint8 (setUint8 buf offset (v % 256))
    (offset + 1) (v / 256 % 256)) (offset + 2) (v / 65536 % 256))
    (offset + 3) (v / 16777216 % 256)

/-- JS `ToInteger` conversion of a (rational-valued) number: truncation
toward zero, as applied by `view.setInt16`. -/
def jsTruncate (q : ℚ) : Int := q.num / (q.den : Int)

/-- `view.setInt16(offset, v, true)`: two's-complement little-endian
16-bit write. -/
def setInt16 (buf : Bytes) (offset : Nat) (v : Int) : Bytes :=
  setUint16 buf offset (v % 65536).toNat

/-- `writeString(view, offset, str)`: write the character codes of `str`
at consecutive offsets. -/
def writeString (buf : Bytes) (offset : Nat) (s : String) : Bytes :=
  (List.range s.data.length).foldl
    (fun b i => setUint8 b (offset + i) (s.data.getD i ' ').toNat) buf

/-- The `AudioBuffer` interface of the media backend: per-channel float
sample data (floats modelled as rationals). -/
structure AudioBuffer where
  numberOfChannels : Nat
  sampleRate : Nat
  length : Nat
  channelData : List (List ℚ)
deriving DecidableEq

/-- `audioBuffer.getChannelData(i)`. -/
def AudioBuffer.getChannelData (b : AudioBuffer) (i : Nat) : List ℚ :=
  b.channelData.getD i []

/-- The interleaved 16-bit sample-writing loop of `bufferToWave`
(`for sampleIndex ... for channelIndex ...`). -/
def writeSamples (channels : List (List ℚ)) (numOfChan : Nat)
    (sampleCount : Nat) (buf : Bytes) : Bytes :=
  (List.range sampleCount).foldl
    (fun b sampleIndex =>
      (List.range numOfChan).foldl
        (fun b2 channelIndex =>
          let sample : ℚ :=
            max (-1) (min 1 ((channels.getD channelIndex []).getD sampleIndex 0))
          let intSample : Int :=
            if sample < 0 then jsTruncate (sample * 0x8000)
            else jsTruncate (sample * 0x7fff)
          setInt16 b2 (44 + sampleIndex * numOfChan * 2 + channelIndex * 2)
            intSample)
        b)
    buf

/-- `bufferToWave(audioBuffer, length)`: canonical 44-byte PCM WAV header
followed by interleaved 16-bit samples, in a buffer of
`length * numOfChan * 2 + 44` bytes. -/
def bufferToWave (audioBuffer : AudioBuffer) (length : Nat) : Bytes :=
  let numOfChan := audioBuffer.numberOfChannels
  let totalLength := length * numOfChan * 2 + 44
  let buffer : Bytes := List.replicate totalLength 0
  let b := writeString buffer 0 "RIFF"
  let b := setUint32 b 4 (totalLength - 8)
  let b := writeString b 8 "WAVE"
  let b := writeString b 12 "fmt "
  let b := setUint32 b 16 16
  let b := setUint16 b 20 1
  let b := setUint16 b 22 numOfChan
  let b := setUint32 b 24 audioBuffer.sampleRate
  let b := setUint32 b 28 (audioBuffer.sampleRate * 2 * numOfChan)
  let b := setUint16 b 32 (numOfChan * 2)
  let b := setUint16 b 34 16
  let b := writeString b 36 "data"
  let b := setUint32 b 40 (totalLength - 44)
  let sampleCount := min length audioBuffer.length
  writeSamples audioBuffer.channelData numOfChan sampleCount b

/-- `getWavHeaderInfo(numChannels, sampleRate, dataLength)`. -/
def getWavHeaderInfo (numChannels sampleRate dataLength : Nat) :
    Nat × Nat × Nat :=
  (44, dataLength + 44, sampleRate * 2 * numChannels)

/-- A concrete mono 3-frame buffer used as a test input. -/
def exampleBuffer : AudioBuffer :=
  { numberOfChannels := 1
    sampleRate := 8000
    length := 3
    channelData := [[0, 0, 0]] }

end WavEncoder

namespace AudioStreamHandler

/-- Outcome of one `navigator.mediaDevices.getUserMedia` attempt, named by
the `DOMException` the media backend raises on failure. -/
inductive AcqOutcome where
  | success
  | abortError
  | notReadableError
  | notAllowedError
  | notFoundError
  | overconstrainedError
  | otherError
deriving DecidableEq, Repr

/-- The retryability test of `getAudioStream`: only `AbortError`
(interrupted request) and `NotReadableError` (device busy) are retried. -/
def isRetryable : AcqOutcome → Bool
  | .abortError => true
  | .notReadableError => true
  | _ => false

/-- `AudioStreamError(originalError, deviceId)`: the wrapper raised on
terminal failure, carrying the device-id context. -/
structure AudioStreamError where
  originalError : AcqOutcome
  deviceId : Option String
deriving DecidableEq, Repr

/-- Observable actions of `getAudioStream`: a `getUserMedia` call (with the
device id it requests) or a `delay(ms)` sleep. -/
inductive AcqEvent where
  | getUserMedia (deviceId : Option String)
  | delayed (ms : Nat)
deriving DecidableEq, Repr

def MAX_RETRIES : Nat := 2

def RETRY_DELAY_MS : Nat := 500

/-- The `for (let attempt = 0; attempt <= MAX_RETRIES; attempt++)` loop of
`getAudioStream`. `outcomes k` is what the media backend does on attempt
`k`; `fuel` counts the loop iterations left (`MAX_RETRIES + 1 - attempt`);
running out of fuel is the unreachable post-loop
`throw new AudioStreamError(... 'Max retries exceeded')`. -/
def getAudioStreamGo (outcomes : Nat → AcqOutcome) (deviceId : Option String) :
    Nat → Nat → Except AudioStreamError Nat × List AcqEvent
  | _, 0 => (.error ⟨.otherError, deviceId⟩, [])
  | attempt, fuel + 1 =>
    let e := outcomes attempt
    if e = .success then (.ok (attempt + 1), [.getUserMedia deviceId])
    else if isRetryable e && decide (attempt < MAX_RETRIES) then
      let rest := getAudioStreamGo outcomes deviceId (attempt + 1) fuel
      (rest.1, .getUserMedia deviceId :: .delayed RETRY_DELAY_MS :: rest.2)
    else (.error ⟨e, deviceId⟩, [.getUserMedia deviceId])

/-- `getAudioStream(deviceId, sampleRate)`: on success returns the number
of attempts used, and in both cases the event trace. -/
def getAudioStream (outcomes : Nat → AcqOutcome) (deviceId : Option String) :
    Except AudioStreamError Nat × List AcqEvent :=
  getAudioStreamGo outcomes deviceId 0 (MAX_RETRIES + 1)

end AudioStreamHandler

namespace AudioCapabilityDetector

def MIME_TYPE_AUDIO_PREFIX : String := "audio/"

def FORMAT_WEBM : String := "webm"

def FORMAT_OGG : String := "ogg"

def FORMAT_WAV : String := "wav"

def COMPRESSED_INTERMEDIATES : List String := [FORMAT_WEBM, FORMAT_OGG]

/-- `buildMimeType(format)`: plain MIME type, no codec suffix. -/
def buildMimeType (format : String) : String :=
  MIME_TYPE_AUDIO_PREFIX ++ format

/-- `ValidationResult` of `validateRecordingCapability`. -/
structure ValidationResult where
  valid : Bool
  reason : String
deriving DecidableEq, Repr

def WAV_UNSUPPORTED_REASON : String :=
  "WAV output requires an intermediate compressed format, but neither WebM nor OGG is supported in this browser."

/-- `validateRecordingCapability(format)`, with
`MediaRecorder.isTypeSupported` injected as `isTypeSupported`. -/
def validateRecordingCapability (isTypeSupported : String → Bool)
    (format : String) : ValidationResult :=
  if format = FORMAT_WAV then
    if COMPRESSED_INTERMEDIATES.any (fun f => isTypeSupported (buildMimeType f)) then
      ⟨true, ""⟩
    else
      ⟨false, WAV_UNSUPPORTED_REASON⟩
  else if isTypeSupported (buildMimeType format) then ⟨true, ""⟩
  else
    ⟨false, "The format \x22" ++ format ++ "\x22 (" ++ buildMimeType format
      ++ ") is not supported for recording in this browser."⟩

end AudioCapabilityDetector

namespace RecordingManager

open AudioCapabilityDetector

/-- JS `String.prototype.toLowerCase()`, per character. -/
def toLowerCase (s : String) : String :=
  ⟨s.data.map Char.toLower⟩

/-- Result of `resolveRecorderFormat`. -/
structure FormatResolution where
  recorderFormat : String
  mimeType : String
deriving DecidableEq, Repr

/-- `resolveRecorderFormat()`: for the uncompressed target `wav`, scan
`preferredCompressedFormats = [FORMAT_WEBM, FORMAT_OGG]` and take the
first one `MediaRecorder.isTypeSupported` accepts, else throw; any other
requested format is passed through (lower-cased) unchanged. -/
def resolveRecorderFormat (isTypeSupported : String → Bool)
    (recordingFormat : String) : Except String FormatResolution :=
  let outputFormat := toLowerCase recordingFormat
  if outputFormat = FORMAT_WAV then
    match [FORMAT_WEBM, FORMAT_OGG].find?
        (fun format => isTypeSupported (buildMimeType format)) with
    | some format => .ok ⟨format, buildMimeType format⟩
    | none => .error WAV_UNSUPPORTED_REASON
  else
    .ok ⟨outputFormat, buildMimeType outputFormat⟩

/-- `RecordingTarget`: the per-track in-memory state (`pendingWrite`, the
per-track serialization promise, is represented by processing a track's
chunks strictly in arrival order rather than as a field). -/
structure RecordingTarget where
  fileBaseName : String
  sourceName : String
  tempFilePath : Option FsPath
  bufferedChunks : List Bytes
  bufferedBytes : Nat
  segmentIndex : Nat
  segmentPaths : List FsPath
deriving DecidableEq, Repr

/-- `RecordingStatus` from `types.ts`. -/
inductive RecordingStatus where
  | Idle
  | Recording
  | Paused
deriving DecidableEq, Repr

/-- A `MediaStream`, identified by the ids of its tracks
(`stream.getTracks()`). -/
structure MediaStream where
  tracks : List Nat
deriving DecidableEq, Repr

/-- The mutable fields of `RecordingManager` touched by
`stopRecording`/`cleanup`. -/
structure ManagerState where
  recorders : List Nat
  chunkTargets : List RecordingTarget
  streams : List MediaStream
  trackOrder : List (Nat × String)
  status : RecordingStatus
  recordingTimestamp : Option String
  totalChunks : Nat
deriving DecidableEq, Repr

/-- Observable resource actions during `stopRecording`. -/
inductive StopEvent where
  | recorderStop (recorder : Nat)
  | trackStop (trackId : Nat)
deriving DecidableEq, Repr

/-- `stopAllStreams(streams)`: `track.stop()` on every track of every
stream, in order. -/
def stopAllStreams (streams : List MediaStream) : List StopEvent :=
  streams.flatMap (fun stream => stream.tracks.map StopEvent.trackStop)

/-- All hardware track ids live in a list of streams. -/
def allTrackIds (streams : List MediaStream) : List Nat :=
  streams.flatMap MediaStream.tracks

/-- `stopRecording()`. The recorders and streams are snapshotted at entry
(`recordersToStop`/`streamsToStop`); the `try` block stops every recorder
and runs `saveRecording` (whose outcome, success or thrown error, is the
`finalizeOutcome` parameter — the `catch` only shows a notice); the
`finally` block always calls `stopAllStreams(streamsToStop)` and resets
every in-memory field and the status to `Idle`. -/
def stopRecording (s : ManagerState) (finalizeOutcome : Except String Unit) :
    ManagerState × List StopEvent :=
  let streamsToStop := s.streams
  let recordersToStop := s.recorders
  let tryEvents := recordersToStop.map StopEvent.recorderStop
  -- Whether `finalizeOutcome` is `.ok` or `.error`, the `catch` arm only
  -- shows a notice and the `finally` arm below runs identically.
  let finallyEvents :=
    match finalizeOutcome with
    | .ok _ => stopAllStreams streamsToStop
    | .error _ => stopAllStreams streamsToStop
  (({ s with
      streams := []
      recorders := []
      chunkTargets := []
      trackOrder := []
      recordingTimestamp := none
      totalChunks := 0
      status := .Idle }),
    tryEvents ++ finallyEvents)

/-- `Uint8Array.prototype.set(src, offset)`: copy `src` into `dest`
starting at byte `offset`. -/
def uint8ArraySet (dest : Bytes) (src : Bytes) (offset : Nat) : Bytes :=
  match src with
  | [] => dest
  | b :: rest => uint8ArraySet (dest.set offset b) rest (offset + 1)

/-- The append step of `handleChunk` in AppendFile (desktop) mode: read the
existing temp-file bytes, allocate `existing.byteLength +
newData.byteLength`, copy both regions, write the merged buffer back. -/
def mergedBytes (existing newData : Bytes) : Bytes :=
  uint8ArraySet
    (uint8ArraySet (List.replicate (existing.length + newData.length) 0)
      existing 0)
    newData existing.length

/-- Draining a track's serialized write queue in AppendFile mode: the
promise chain `target.pendingWrite = target.pendingWrite.then(enqueue)`
processes chunks strictly in arrival order; returns the final temp-file
content and the sequence of buffer contents passed to `writeBinary`. -/
def processChunksDesktop (tempFile : Bytes) (chunks : List Bytes) :
    Bytes × List Bytes :=
  chunks.foldl
    (fun acc chunk =>
      (mergedBytes acc.1 chunk, acc.2 ++ [mergedBytes acc.1 chunk]))
    (tempFile, [])

/-- The `ondataavailable` guard: only chunks with `event.data.size > 0`
are handed to `handleChunk`. -/
def deliveredChunks (emitted : List Bytes) : List Bytes :=
  emitted.filter (fun chunk => decide (0 < chunk.length))

def MOBILE_BUFFER_LIMIT_BYTES : Nat := 50 * 1024 * 1024

/-- `flushMobileBuffer(target)`. `resolveUnique` stands for the async
`resolveUniquePath` call against the vault; the second component is the
`createBinary` write performed, if any (segment path and the buffered
chunks whose concatenation — after optional WAV conversion — it
receives). -/
def flushMobileBuffer (resolveUnique : String → FsPath)
    (recordingFormat : String) (target : RecordingTarget) :
    RecordingTarget × Option (FsPath × List Bytes) :=
  if target.bufferedChunks = [] then (target, none)
  else
    let segmentIndex := target.segmentIndex + 1
    let segmentName := target.fileBaseName ++ "-part" ++ toString segmentIndex
      ++ "." ++ recordingFormat
    let segmentPath := resolveUnique segmentName
    ({ target with
        segmentIndex := segmentIndex
        segmentPaths := target.segmentPaths ++ [segmentPath]
        bufferedChunks := []
        bufferedBytes := 0 },
      some (segmentPath, target.bufferedChunks))

/-- `handleChunk` in SegmentedBuffer (mobile) mode: push the chunk, add its
size, and flush once `bufferedBytes >= MOBILE_BUFFER_LIMIT_BYTES`. -/
def handleChunkMobile (resolveUnique : String → FsPath)
    (recordingFormat : String) (target : RecordingTarget) (data : Bytes) :
    RecordingTarget × Option (FsPath × List Bytes) :=
  let target1 := { target with
    bufferedChunks := target.bufferedChunks ++ [data]
    bufferedBytes := target.bufferedBytes + data.length }
  if MOBILE_BUFFER_LIMIT_BYTES ≤ target1.bufferedBytes then
    flushMobileBuffer resolveUnique recordingFormat target1
  else (target1, none)

/-- The invariant `bufferedBytes == sum of sizes of bufferedChunks`. -/
def bytesInvariant (target : RecordingTarget) : Prop :=
  target.bufferedBytes = (target.bufferedChunks.map List.length).sum

/-- One `vault.adapter.remove(path)` call against a storage backend whose
existing paths are `fs` and where removal of `p` throws iff
`removable p = false`; returns the new file set and whether it
succeeded. -/
def removeAttempt (removable : FsPath → Bool) (fs : List FsPath)
    (path : FsPath) : List FsPath × Bool :=
  if removable path then (fs.erase path, true) else (fs, false)

/-- The body of the `paths.map(async (path) => ...)` arm of
`removeTemporaryArtifacts`: one removal attempt, appending the path to
`failedPaths` when it fails. -/
def removeStep (removable : FsPath → Bool)
    (acc : List FsPath × List FsPath) (path : FsPath) :
    List FsPath × List FsPath :=
  let r := removeAttempt removable acc.1 path
  (r.1, if r.2 then acc.2 else acc.2 ++ [path])

/-- `removeTemporaryArtifacts(paths, logContext)`: attempt every removal
(failures are logged, pushed onto `failedPaths`, and never rethrown);
returns the resulting file set and `failedPaths`. The `Promise.all` of
independent removals is sequentialized in list order. -/
def removeTemporaryArtifacts (removable : FsPath → Bool) (fs : List FsPath)
    (paths : List FsPath) : List FsPath × List FsPath :=
  paths.foldl (removeStep removable) (fs, [])

/-- The intermediate per-track paths gathered by
`cleanupIntermediateFiles()`: each target's temp file (if any) followed by
its segment files. -/
def intermediatePaths (targets : List RecordingTarget) : List FsPath :=
  targets.flatMap (fun target =>
    (match target.tempFilePath with
      | some p => [p]
      | none => []) ++ target.segmentPaths)

/-- `rollbackFinalFile(filePath, logContext)`: attempt to remove the
just-written final artifact; its own failure is only logged. -/
def rollbackFinalFile (removable : FsPath → Bool) (fs : List FsPath)
    (filePath : FsPath) : List FsPath :=
  (removeAttempt removable fs filePath).1

/-- Outcome of the single-file multi-track tail of `saveRecording`. -/
structure MergedSaveResult where
  fs : List FsPath
  savedPath : Option FsPath
  failedCleanupPaths : List FsPath
  threwError : Bool
deriving DecidableEq, Repr

/-- The `outputMode === 'single'`, multi-track tail of `saveRecording`,
entered after the merged blob was built and `saveAudioFile` wrote it at
the fresh `finalPath`: remove every intermediate per-track file; if any
removal failed, roll the final artifact back and throw, reporting the
surviving paths. -/
def saveMergedArtifact (removable : FsPath → Bool) (fs : List FsPath)
    (targets : List RecordingTarget) (finalPath : FsPath) :
    MergedSaveResult :=
  let fs1 := fs ++ [finalPath]
  let cleanup := removeTemporaryArtifacts removable fs1
    (intermediatePaths targets)
  if cleanup.2 = [] then ⟨cleanup.1, some finalPath, [], false⟩
  else
    ⟨rollbackFinalFile removable cleanup.1 finalPath, none, cleanup.2, true⟩

/-- Error raised when `vault.adapter.rename` fails in
`finalizeTrackFiles`. -/
structure RenameError where
  oldPath : FsPath
  newPath : FsPath
deriving DecidableEq, Repr

/-- `finalizeTrackFiles(target, timestamp)` in desktop mode with a
non-WAV output format: `rename(target.tempFilePath, filePath)` where
`filePath` is the resolved unique final path; `renameOk` says whether the
backend rename succeeds. Returns the new file set and the produced file
links. A target without a temp file yields no links. -/
def finalizeTrackFile (renameOk : FsPath → FsPath → Bool) (fs : List FsPath)
    (target : RecordingTarget) (filePath : FsPath) :
    Except RenameError (List FsPath × List FsPath) :=
  match target.tempFilePath with
  | none => .ok (fs, [])
  | some tempFilePath =>
    if renameOk tempFilePath filePath then
      .ok ((fs.erase tempFilePath) ++ [filePath], [filePath])
    else
      .error ⟨tempFilePath, filePath⟩

/-- The `outputMode === 'multiple'` branch of `saveRecording`: the
`for (let i = 0; ...)` loop over `chunkTargets`, finalizing each in turn;
`resolvePath i` is the unique final path resolved for track `i`. A thrown
error propagates out of the loop at once (there is no per-track
`try`/`catch`), carrying the file set as of the failure. -/
def saveMultipleGo (renameOk : FsPath → FsPath → Bool)
    (resolvePath : Nat → FsPath) :
    List FsPath → List FsPath → Nat → List RecordingTarget →
    Except (RenameError × List FsPath) (List FsPath × List FsPath)
  | fs, fileLinks, _, [] => .ok (fs, fileLinks)
  | fs, fileLinks, i, target :: rest =>
    match finalizeTrackFile renameOk fs target (resolvePath i) with
    | .ok (fs1, links) =>
      saveMultipleGo renameOk resolvePath fs1 (fileLinks ++ links) (i + 1) rest
    | .error e => .error (e, fs)

/-- Entry point of the `'multiple'` branch. -/
def saveMultiple (renameOk : FsPath → FsPath → Bool)
    (resolvePath : Nat → FsPath) (fs : List FsPath)
    (targets : List RecordingTarget) :
    Except (RenameError × List FsPath) (List FsPath × List FsPath) :=
  saveMultipleGo renameOk resolvePath fs [] 0 targets

/-- The file links the `'multiple'` loop produces when every per-track
finalization succeeds: one resolved final path per temp-bearing target, in
track order. -/
def expectedLinks (resolvePath : Nat → FsPath) :
    Nat → List RecordingTarget → List FsPath
  | _, [] => []
  | i, target :: rest =>
    (match target.tempFilePath with
      | some _ => [resolvePath i]
      | none => []) ++ expectedLinks resolvePath (i + 1) rest

/-- The characters erased by
`fileName.replace(/[\\/:*?"<>|]/g, '-')`. -/
def isForbiddenChar (c : Char) : Bool :=
  c = '\\' || c = '/' || c = ':' || c = '*' || c = '?' || c = '"' ||
    c = '<' || c = '>' || c = '|'

/-- The per-character action of the sanitizing `replace`. -/
def replaceForbidden (c : Char) : Char :=
  if isForbiddenChar c then '-' else c

/-- `fileName.replace(/[\\/:*?"<>|]/g, '-')`. -/
def sanitizeFileName (s : String) : String :=
  ⟨s.data.map replaceForbidden⟩

/-- JS `String.prototype.split(sep)` with a one-character separator:
splits at every occurrence, keeping empty pieces. -/
def splitChar (sep : Char) : List Char → List (List Char)
  | [] => [[]]
  | c :: rest =>
    let r := splitChar sep rest
    if c = sep then [] :: r
    else (c :: r.headD []) :: r.tail

/-- One iteration of the collision loop of `resolveUniquePath`:
`parts = sanitizedFileName.split('.')`, `ext = parts.pop() ?? ''`,
`name = parts.join('.')`, then `` `${name}_${counter}.${ext}` ``. Note it
rewrites the *current* candidate, so suffixes accumulate. -/
def nextCandidate (sanitizedFileName : String) (counter : Nat) : String :=
  let parts := splitChar '.' sanitizedFileName.data
  let ext := parts.getLast?.getD []
  let name := List.intercalate ['.'] parts.dropLast
  ⟨name ++ '_' :: (toString counter).data ++ '.' :: ext⟩

/-- `normalizePath(baseDirectory + '/' + fileName)` of the storage
backend, modelled as plain joining. -/
def joinPath (baseDirectory : String) (fileName : String) : FsPath :=
  baseDirectory ++ "/" ++ fileName

/-- The `while (await this.app.vault.adapter.exists(filePath))` loop of
`resolveUniquePath`, with `pathExists` the backend existence check and
`fuel` a bound on iterations (`none` on exhaustion; the JS loop just keeps
going). -/
def resolveUniquePathGo (pathExists : FsPath → Bool) (baseDirectory : String) :
    String → Nat → Nat → Option FsPath
  | _, _, 0 => none
  | sanitizedFileName, counter, fuel + 1 =>
    let filePath := joinPath baseDirectory sanitizedFileName
    if pathExists filePath then
      resolveUniquePathGo pathExists baseDirectory
        (nextCandidate sanitizedFileName counter) (counter + 1) fuel
    else some filePath

/-- `resolveUniquePath(fileName)`: sanitize, then probe candidates with
`counter` starting at 1. (`ensureFolderExists` touches only the
directory, not the candidate names.) -/
def resolveUniquePath (pathExists : FsPath → Bool) (baseDirectory : String)
    (fileName : String) (fuel : Nat) : Option FsPath :=
  resolveUniquePathGo pathExists baseDirectory (sanitizeFileName fileName)
    1 fuel

/-- The sequence of candidate file names the loop generates:
`candidateAt s 0 = s`, and each retry rewrites the previous candidate. -/
def candidateAt (s : String) : Nat → String
  | 0 => s
  | k + 1 => nextCandidate (candidateAt s k) (k + 1)

end RecordingManager

namespace WavEncoder

theorem length_foldl_preserved {α : Type} (l : List α)
    (f : Bytes → α → Bytes) (b : Bytes)
    (hf : ∀ b x, (f b x).length = b.length) :
    (l.foldl f b).length = b.length := by
  induction l generalizing b with
  | nil => rfl
  | cons x xs ih => simp [List.foldl_cons, ih, hf]

theorem length_setUint8 (buf : Bytes) (offset v : Nat) :
    (setUint8 buf offset v).length = buf.length := by
  simp [setUint8]

theorem length_setUint16 (buf : Bytes) (offset v : Nat) :
    (setUint16 buf offset v).length = buf.length := by
  simp [setUint16, length_setUint8]

theorem length_setUint32 (buf : Bytes) (offset v : Nat) :
    (setUint32 buf offset v).length = buf.length := by
  simp [setUint32, length_setUint8]

theorem length_setInt16 (buf : Bytes) (offset : Nat) (v : Int) :
    (setInt16 buf offset v).length = buf.length := by
  simp [setInt16, length_setUint16]

theorem length_writeString (buf : Bytes) (offset : Nat) (s : String) :
    (writeString buf offset s).length = buf.length := by
  unfold writeString
  exact length_foldl_preserved _ _ _ (fun b i => length_setUint8 b _ _)

theorem length_writeSamples (channels : List (List ℚ)) (numOfChan : Nat)
    (sampleCount : Nat) (buf : Bytes) :
    (writeSamples channels numOfChan sampleCount buf).length = buf.length := by
  unfold writeSamples
  refine length_foldl_preserved _ _ _ (fun b i => ?_)
  exact length_foldl_preserved _ _ _ (fun b2 j => length_setInt16 b2 _ _)

/-- The byte size of `bufferToWave` output: 44 header bytes plus
`length * channels * 2` data bytes, where `length` is the *requested*
sample count (the allocation at `const totalLength = length * numOfChan *
2 + 44` uses `length`, not `min(length, audioBuffer.length)`). -/
theorem bufferToWave_length (audioBuffer : AudioBuffer) (length : Nat) :
    (bufferToWave audioBuffer length).length =
      44 + length * audioBuffer.numberOfChannels * 2 := by
  unfold bufferToWave
  simp only [length_writeSamples, length_setUint32, length_setUint16,
    length_writeString, List.length_replicate]
  omega

/-- C6 (counterexample): for the 3-frame mono buffer and requested sample
count 5, `bufferToWave` returns `44 + 5*1*2 = 54` bytes, not
`44 + min(5, 3)*1*2 = 50` bytes: the output size is *not*
`44 + min(n, b.length) * c * 2` in general. -/
theorem bufferToWave_size_counterexample :
    (bufferToWave exampleBuffer 5).length ≠
      44 + min 5 exampleBuffer.length * exampleBuffer.numberOfChannels * 2 := by
  rw [bufferToWave_length]
  decide

/-- C6 (amended): for every audio buffer `b` with `c` channels and every
requested sample count `n`, `bufferToWave` returns a byte sequence of
exactly `44 + n * c * 2` bytes — the *requested* count `n`, not
`min(n, b.length)`; only the first `min(n, b.length)` frames carry sample
data. When `n ≤ b.length` this agrees with the claimed
`44 + min(n, b.length) * c * 2`. -/
theorem bufferToWave_size_amended (b : AudioBuffer) (n : Nat) :
    (bufferToWave b n).length = 44 + n * b.numberOfChannels * 2 ∧
    (n ≤ b.length →
      (bufferToWave b n).length =
        44 + min n b.length * b.numberOfChannels * 2) := by
  refine ⟨bufferToWave_length b n, fun h => ?_⟩
  rw [bufferToWave_length, Nat.min_eq_left h]

/-- C6 (witness): the amended theorem applied to the 3-frame mono example
buffer at requested count 3. -/
theorem bufferToWave_size_amended_witness :
    (bufferToWave exampleBuffer 3).length =
      44 + min 3 exampleBuffer.length * exampleBuffer.numberOfChannels * 2 :=
  (bufferToWave_size_amended exampleBuffer 3).2 (by decide)

end WavEncoder

namespace AudioStreamHandler

/-- C4: retry semantics of `getAudioStream`. For any device and outcome
schedule: (1) two transient failures (`isRetryable`) followed by a success
yield success after exactly 3 `getUserMedia` attempts, each retry preceded
by the fixed 500 ms delay and every attempt directed at the same device
(no fallback); (2) a terminal (non-retryable) failure on attempt `k`
(after transient failures before it) fails after exactly `k + 1` attempts,
with no further retry, no fallback device, and the error wrapped with the
device id. -/
theorem getAudioStream_retry_and_terminal
    (outcomes₁ outcomes₂ : Nat → AcqOutcome) (d₁ d₂ : Option String)
    (k : Nat)
    (ht0 : isRetryable (outcomes₁ 0) = true)
    (ht1 : isRetryable (outcomes₁ 1) = true)
    (ht2 : outcomes₁ 2 = .success)
    (hk : k ≤ MAX_RETRIES)
    (hterm : isRetryable (outcomes₂ k) = false)
    (hterm' : outcomes₂ k ≠ .success)
    (hpre : ∀ j, j < k → isRetryable (outcomes₂ j) = true) :
    getAudioStream outcomes₁ d₁ =
      (.ok 3,
        [.getUserMedia d₁, .delayed RETRY_DELAY_MS,
         .getUserMedia d₁, .delayed RETRY_DELAY_MS,
         .getUserMedia d₁]) ∧
    getAudioStream outcomes₂ d₂ =
      (.error ⟨outcomes₂ k, d₂⟩,
        (List.range k).flatMap
          (fun _ => [.getUserMedia d₂, .delayed RETRY_DELAY_MS]) ++
          [.getUserMedia d₂]) := by
  have hs0 : outcomes₁ 0 ≠ .success := by
    intro h; rw [h] at ht0; simp [isRetryable] at ht0
  have hs1 : outcomes₁ 1 ≠ .success := by
    intro h; rw [h] at ht1; simp [isRetryable] at ht1
  constructor
  · simp [getAudioStream, getAudioStreamGo, MAX_RETRIES, hs0, hs1, ht0, ht1,
      ht2]
  · have hk2 : k ≤ 2 := hk
    interval_cases k
    · simp [getAudioStream, getAudioStreamGo, MAX_RETRIES, hterm, hterm']
    · have h0 := hpre 0 (by omega)
      have hs0' : outcomes₂ 0 ≠ .success := by
        intro h; rw [h] at h0; simp [isRetryable] at h0
      simp [getAudioStream, getAudioStreamGo, MAX_RETRIES, h0, hs0', hterm,
        hterm', List.range_succ]
    · have h0 := hpre 0 (by omega)
      have h1 := hpre 1 (by omega)
      have hs0' : outcomes₂ 0 ≠ .success := by
        intro h; rw [h] at h0; simp [isRetryable] at h0
      have hs1' : outcomes₂ 1 ≠ .success := by
        intro h; rw [h] at h1; simp [isRetryable] at h1
      simp [getAudioStream, getAudioStreamGo, MAX_RETRIES, h0, h1, hs0',
        hs1', hterm, hterm', List.range_succ]

/-- C4 (witness): the theorem applied to a schedule with two interrupted
attempts then success on device `mic`, and a schedule whose first attempt
is denied permission on device `aux`. -/
theorem getAudioStream_retry_and_terminal_witness :
    getAudioStream
        (fun j => if j < 2 then .abortError else .success) (some "mic") =
      (.ok 3,
        [.getUserMedia (some "mic"), .delayed RETRY_DELAY_MS,
         .getUserMedia (some "mic"), .delayed RETRY_DELAY_MS,
         .getUserMedia (some "mic")]) ∧
    getAudioStream (fun _ => .notAllowedError) (some "aux") =
      (.error ⟨.notAllowedError, some "aux"⟩,
        [.getUserMedia (some "aux")]) := by
  have h := getAudioStream_retry_and_terminal
    (fun j => if j < 2 then .abortError else .success)
    (fun _ => .notAllowedError) (some "mic") (some "aux") 0
    (by decide) (by decide) (by decide) (by decide) (by decide) (by decide)
    (fun j hj => by omega)
  exact ⟨h.1, by simpa using h.2⟩

end AudioStreamHandler

namespace RecordingManager

open AudioCapabilityDetector

/-- C8: `resolveRecorderFormat` capture-format resolution. Any requested
format other than the uncompressed target `wav` (in particular every
natively supported one) is kept as the capture format (case-normalized);
for `wav` the first supported entry of the fixed preference order
`[webm, ogg]` is chosen; and when neither is supported it fails — and
`validateRecordingCapability` reports invalid — with the capability error
naming the unsupported WAV/WebM/OGG configuration. -/
theorem resolveRecorderFormat_capture_format
    (isTypeSupported : String → Bool) (requested : String) :
    (toLowerCase requested ≠ FORMAT_WAV →
      resolveRecorderFormat isTypeSupported requested =
        .ok ⟨toLowerCase requested, buildMimeType (toLowerCase requested)⟩) ∧
    (isTypeSupported (buildMimeType FORMAT_WEBM) = true →
      resolveRecorderFormat isTypeSupported FORMAT_WAV =
        .ok ⟨FORMAT_WEBM, buildMimeType FORMAT_WEBM⟩) ∧
    (isTypeSupported (buildMimeType FORMAT_WEBM) = false →
      isTypeSupported (buildMimeType FORMAT_OGG) = true →
      resolveRecorderFormat isTypeSupported FORMAT_WAV =
        .ok ⟨FORMAT_OGG, buildMimeType FORMAT_OGG⟩) ∧
    (isTypeSupported (buildMimeType FORMAT_WEBM) = false →
      isTypeSupported (buildMimeType FORMAT_OGG) = false →
      resolveRecorderFormat isTypeSupported FORMAT_WAV =
        .error WAV_UNSUPPORTED_REASON ∧
      validateRecordingCapability isTypeSupported FORMAT_WAV =
        ⟨false, WAV_UNSUPPORTED_REASON⟩) := by
  have hwav : toLowerCase FORMAT_WAV = FORMAT_WAV := by decide
  refine ⟨fun hne => ?_, fun hwebm => ?_, fun hwebm hogg => ?_,
    fun hwebm hogg => ⟨?_, ?_⟩⟩
  · simp [resolveRecorderFormat, hne]
  · simp [resolveRecorderFormat, hwav, List.find?, hwebm]
  · simp [resolveRecorderFormat, hwav, List.find?, hwebm, hogg]
  · simp [resolveRecorderFormat, hwav, List.find?, hwebm, hogg]
  · simp [validateRecordingCapability, COMPRESSED_INTERMEDIATES, hwebm, hogg]

/-- C8 (witness): the theorem applied to a backend supporting only
`audio/ogg` — requesting `ogg` keeps `ogg`, requesting `wav` captures as
`ogg`; and to a backend supporting nothing, where `wav` fails with the
capability error. -/
theorem resolveRecorderFormat_capture_format_witness :
    resolveRecorderFormat (fun m => m = "audio/ogg") "ogg" =
      .ok ⟨"ogg", "audio/ogg"⟩ ∧
    resolveRecorderFormat (fun m => m = "audio/ogg") "wav" =
      .ok ⟨FORMAT_OGG, buildMimeType FORMAT_OGG⟩ ∧
    resolveRecorderFormat (fun _ => false) "wav" =
      .error WAV_UNSUPPORTED_REASON := by
  refine ⟨?_, ?_, ?_⟩
  · have h := (resolveRecorderFormat_capture_format
      (fun m => m = "audio/ogg") "ogg").1 (by decide)
    simpa using h
  · exact (resolveRecorderFormat_capture_format
      (fun m => m = "audio/ogg") FORMAT_WAV).2.2.1 (by decide) (by decide)
  · exact ((resolveRecorderFormat_capture_format
      (fun _ => false) FORMAT_WAV).2.2.2 (by decide) (by decide)).1

end RecordingManager

namespace RecordingManager

/-- C10: flushing a track with an empty `bufferedChunks` list is a
complete no-op — the target is returned unchanged and no `createBinary`
write happens; conversely, whenever a segment file is written its content
comes from the (non-empty) list of buffered chunks, so when every buffered
chunk is non-empty (as the `event.data.size > 0` delivery guard ensures)
the written bytes are non-empty. -/
theorem flushMobileBuffer_empty_noop (resolveUnique : String → FsPath)
    (recordingFormat : String) (target : RecordingTarget) :
    (target.bufferedChunks = [] →
      flushMobileBuffer resolveUnique recordingFormat target =
        (target, none)) ∧
    (∀ p content,
      (flushMobileBuffer resolveUnique recordingFormat target).2 =
          some (p, content) →
      target.bufferedChunks ≠ [] ∧ content = target.bufferedChunks ∧
      (flushMobileBuffer resolveUnique recordingFormat target).1.segmentIndex
        = target.segmentIndex + 1 ∧
      (flushMobileBuffer resolveUnique recordingFormat target).1.segmentPaths
        = target.segmentPaths ++ [p] ∧
      ((∀ c ∈ target.bufferedChunks, c ≠ []) → content.flatten ≠ [])) := by
  constructor
  · intro h
    simp [flushMobileBuffer, h]
  · intro p content hwrite
    by_cases h : target.bufferedChunks = []
    · simp [flushMobileBuffer, h] at hwrite
    · simp only [flushMobileBuffer, h, if_false, Option.some.injEq,
        Prod.mk.injEq] at hwrite ⊢
      obtain ⟨hp, hc⟩ := hwrite
      subst hp
      subst hc
      refine ⟨h, rfl, by simp, by simp, ?_⟩
      intro hne
      cases hchunks : target.bufferedChunks with
      | nil => exact absurd hchunks h
      | cons c rest =>
        have hcne : c ≠ [] := hne c (by rw [hchunks]; exact List.mem_cons_self ..)
        simp only [List.flatten_cons]
        intro habs
        exact hcne (List.append_eq_nil.mp habs).1

/-- C10 (witness): flushing an empty-buffer target is the identity with no
write; flushing a one-chunk target appends exactly one segment path. -/
theorem flushMobileBuffer_empty_noop_witness :
    flushMobileBuffer (fun s => "dir/" ++ s) "webm"
        ⟨"base", "src", none, [], 0, 0, []⟩ =
      (⟨"base", "src", none, [], 0, 0, []⟩, none) ∧
    (flushMobileBuffer (fun s => "dir/" ++ s) "webm"
        ⟨"base", "src", none, [[7]], 1, 0, []⟩).1.segmentPaths =
      [] ++ ["dir/base-part1.webm"] :=
  ⟨(flushMobileBuffer_empty_noop _ _ _).1 rfl,
   ((flushMobileBuffer_empty_noop _ _
     ⟨"base", "src", none, [[7]], 1, 0, []⟩).2 "dir/base-part1.webm" [[7]]
     (by decide)).2.2.2.1⟩

/-- C9: SegmentedBuffer bookkeeping. If `bufferedBytes` equals the summed
sizes of `bufferedChunks` before a chunk arrives, it still does after
`handleChunk` processes the chunk (in both the buffering and the flushing
branch); and when the arrival makes `bufferedBytes` reach the fixed
`MOBILE_BUFFER_LIMIT_BYTES` (50 MiB) threshold, the buffer is flushed to a
new segment file appended to `segmentPaths`, after which `bufferedChunks`
is empty and `bufferedBytes` is `0`. -/
theorem handleChunkMobile_invariant_and_flush
    (resolveUnique : String → FsPath) (recordingFormat : String)
    (target : RecordingTarget) (data : Bytes)
    (hinv : bytesInvariant target) :
    bytesInvariant
      (handleChunkMobile resolveUnique recordingFormat target data).1 ∧
    (MOBILE_BUFFER_LIMIT_BYTES ≤ target.bufferedBytes + data.length →
      (handleChunkMobile resolveUnique recordingFormat target data).1.bufferedChunks
        = [] ∧
      (handleChunkMobile resolveUnique recordingFormat target data).1.bufferedBytes
        = 0 ∧
      (handleChunkMobile resolveUnique recordingFormat target data).1.segmentPaths
        = target.segmentPaths ++
          [resolveUnique (target.fileBaseName ++ "-part"
            ++ toString (target.segmentIndex + 1) ++ "." ++ recordingFormat)] ∧
      (handleChunkMobile resolveUnique recordingFormat target data).2
        = some (resolveUnique (target.fileBaseName ++ "-part"
            ++ toString (target.segmentIndex + 1) ++ "." ++ recordingFormat),
          target.bufferedChunks ++ [data])) := by
  have hne : target.bufferedChunks ++ [data] ≠ [] := by simp
  constructor
  · by_cases hlim : MOBILE_BUFFER_LIMIT_BYTES ≤ target.bufferedBytes + data.length
    · simp [handleChunkMobile, hlim, flushMobileBuffer, hne, bytesInvariant]
    · simp only [handleChunkMobile, hlim, if_false, if_neg hlim]
      simp [bytesInvariant] at hinv ⊢
      omega
  · intro hlim
    simp [handleChunkMobile, hlim, flushMobileBuffer, hne]

/-- C9 (witness): the theorem applied to a small target receiving a 1-byte
chunk (invariant preserved, no flush), and to a target already holding
50 MiB − 1 buffered bytes whose next 1-byte chunk reaches the threshold
and flushes the buffer to a fresh segment file. -/
theorem handleChunkMobile_invariant_and_flush_witness :
    bytesInvariant
      (handleChunkMobile (fun s => "dir/" ++ s) "webm"
        ⟨"base", "src", none, [[1, 2]], 2, 0, []⟩ [3]).1 ∧
    (handleChunkMobile (fun s => "dir/" ++ s) "webm"
      ⟨"base", "src", none,
        [List.replicate (MOBILE_BUFFER_LIMIT_BYTES - 1) 0],
        MOBILE_BUFFER_LIMIT_BYTES - 1, 0, []⟩ [9]).1.bufferedChunks = [] ∧
    (handleChunkMobile (fun s => "dir/" ++ s) "webm"
      ⟨"base", "src", none,
        [List.replicate (MOBILE_BUFFER_LIMIT_BYTES - 1) 0],
        MOBILE_BUFFER_LIMIT_BYTES - 1, 0, []⟩ [9]).1.bufferedBytes = 0 :=
  have h := handleChunkMobile_invariant_and_flush (fun s => "dir/" ++ s)
    "webm"
    ⟨"base", "src", none, [List.replicate (MOBILE_BUFFER_LIMIT_BYTES - 1) 0],
      MOBILE_BUFFER_LIMIT_BYTES - 1, 0, []⟩ [9]
    (by simp [bytesInvariant])
  have hflush := h.2 (by simp [MOBILE_BUFFER_LIMIT_BYTES])
  ⟨(handleChunkMobile_invariant_and_flush (fun s => "dir/" ++ s) "webm"
      ⟨"base", "src", none, [[1, 2]], 2, 0, []⟩ [3] rfl).1,
    hflush.1, hflush.2.1⟩

/-- C1: whatever `saveRecording` does — return normally or throw — the
`finally` arm of `stopRecording` resets every in-memory field (status
`Idle`, no recorders, no streams, no chunk targets, no track order, no
timestamp, zero chunk count), and each hardware track of each stream
captured at entry receives exactly one `track.stop()` release call. -/
theorem stopRecording_releases_and_resets (s : ManagerState)
    (finalizeOutcome : Except String Unit)
    (hnd : (allTrackIds s.streams).Nodup) :
    ((stopRecording s finalizeOutcome).1.status = .Idle ∧
     (stopRecording s finalizeOutcome).1.streams = [] ∧
     (stopRecording s finalizeOutcome).1.recorders = [] ∧
     (stopRecording s finalizeOutcome).1.chunkTargets = [] ∧
     (stopRecording s finalizeOutcome).1.trackOrder = [] ∧
     (stopRecording s finalizeOutcome).1.recordingTimestamp = none ∧
     (stopRecording s finalizeOutcome).1.totalChunks = 0) ∧
    (∀ trackId ∈ allTrackIds s.streams,
      (stopRecording s finalizeOutcome).2.count
        (StopEvent.trackStop trackId) = 1) := by
  constructor
  · cases finalizeOutcome <;> simp [stopRecording]
  · intro trackId hmem
    have hinj : Function.Injective StopEvent.trackStop := by
      intro a b h
      injection h
    have hcount0 : (s.recorders.map StopEvent.recorderStop).count
        (StopEvent.trackStop trackId) = 0 :=
      List.count_eq_zero.mpr (by simp)
    have hmapeq : stopAllStreams s.streams =
        (allTrackIds s.streams).map StopEvent.trackStop := by
      simp [stopAllStreams, allTrackIds, List.map_flatMap]
    have hcount1 : (stopAllStreams s.streams).count
        (StopEvent.trackStop trackId) = 1 := by
      rw [hmapeq, List.count_map_of_injective _ _ hinj]
      exact List.count_eq_one_of_mem hnd hmem
    cases finalizeOutcome <;>
      simp [stopRecording, List.count_append, hcount0, hcount1]

/-- C1 (witness): a two-stream session (tracks 1,2 and 3) stopped while
finalize throws still ends Idle with empty state and one release per
track. -/
theorem stopRecording_releases_and_resets_witness :
    (stopRecording
      ⟨[10, 11], [], [⟨[1, 2]⟩, ⟨[3]⟩], [(1, "a"), (2, "b")], .Recording,
        some "ts", 7⟩
      (.error "decode failed")).1.status = .Idle ∧
    (stopRecording
      ⟨[10, 11], [], [⟨[1, 2]⟩, ⟨[3]⟩], [(1, "a"), (2, "b")], .Recording,
        some "ts", 7⟩
      (.error "decode failed")).2.count (StopEvent.trackStop 3) = 1 :=
  have h := stopRecording_releases_and_resets
    ⟨[10, 11], [], [⟨[1, 2]⟩, ⟨[3]⟩], [(1, "a"), (2, "b")], .Recording,
      some "ts", 7⟩
    (.error "decode failed") (by decide)
  ⟨h.1.1, h.2 3 (by decide)⟩

theorem set_append_cons (pre : Bytes) (p : Nat) (ps : Bytes) (b : Nat) :
    (pre ++ p :: ps).set pre.length b = pre ++ b :: ps := by
  induction pre with
  | nil => rfl
  | cons x xs ih => simp [List.set, ih]

theorem uint8ArraySet_append (src : Bytes) (pre post : Bytes)
    (h : src.length ≤ post.length) :
    uint8ArraySet (pre ++ post) src pre.length =
      pre ++ src ++ post.drop src.length := by
  induction src generalizing pre post with
  | nil => simp [uint8ArraySet]
  | cons b rest ih =>
    cases post with
    | nil => simp at h
    | cons p ps =>
      rw [uint8ArraySet, set_append_cons]
      have hlen : (pre ++ [b]).length = pre.length + 1 := by simp
      have hstep : pre ++ b :: ps = (pre ++ [b]) ++ ps := by simp
      rw [hstep, ← hlen, ih (pre ++ [b]) ps (by simpa using h)]
      simp

theorem mergedBytes_eq_append (existing newData : Bytes) :
    mergedBytes existing newData = existing ++ newData := by
  unfold mergedBytes
  have h1 : uint8ArraySet
      (List.replicate (existing.length + newData.length) 0) existing 0 =
      existing ++ List.replicate newData.length 0 := by
    have := uint8ArraySet_append existing []
      (List.replicate (existing.length + newData.length) 0) (by simp)
    simpa [List.drop_replicate] using this
  rw [h1]
  have h2 := uint8ArraySet_append newData existing
    (List.replicate newData.length 0) (by simp)
  simpa [List.drop_replicate] using h2

theorem processChunksDesktop_go (chunks : List Bytes) (tempFile : Bytes)
    (writes : List Bytes) :
    chunks.foldl
      (fun acc chunk =>
        (mergedBytes acc.1 chunk, acc.2 ++ [mergedBytes acc.1 chunk]))
      (tempFile, writes) =
    (tempFile ++ chunks.flatten,
      writes ++ (List.range chunks.length).map
        (fun i => tempFile ++ (chunks.take (i + 1)).flatten)) := by
  induction chunks generalizing tempFile writes with
  | nil => simp
  | cons c cs ih =>
    simp only [List.foldl_cons]
    rw [ih]
    simp only [mergedBytes_eq_append, Prod.mk.injEq]
    constructor
    · simp
    · simp only [List.length_cons]
      rw [List.range_succ_eq_map]
      simp [Function.comp]

/-- C3: draining one AppendFile-mode track's serialized write queue.
Starting from the empty pre-created temp file, after processing the
delivered (non-empty) chunks in arrival order: (1) the temp file's byte
content is exactly the concatenation of the delivered chunks in arrival
order; (2) the sequence of `writeBinary` calls is exactly the increasing
prefixes of that concatenation — writes never interleave or reorder; and
(3) concretely, two 3-byte chunks yield the 6-byte exact concatenation. -/
theorem appendFile_arrival_order_concat (emitted : List Bytes) :
    (processChunksDesktop [] (deliveredChunks emitted)).1 =
      (deliveredChunks emitted).flatten ∧
    (processChunksDesktop [] (deliveredChunks emitted)).2 =
      (List.range (deliveredChunks emitted).length).map
        (fun i => ((deliveredChunks emitted).take (i + 1)).flatten) ∧
    processChunksDesktop [] (deliveredChunks [[1, 2, 3], [4, 5, 6]]) =
      ([1, 2, 3, 4, 5, 6], [[1, 2, 3], [1, 2, 3, 4, 5, 6]]) := by
  refine ⟨?_, ?_, ?_⟩
  · rw [processChunksDesktop, processChunksDesktop_go]
    simp
  · rw [processChunksDesktop, processChunksDesktop_go]
    simp
  · decide


theorem removeArtifacts_go_failed (removable : FsPath → Bool)
    (paths : List FsPath) (fs : List FsPath) (writes : List FsPath) :
    (paths.foldl (removeStep removable) (fs, writes)).2 =
      writes ++ paths.filter (fun p => !removable p) := by
  induction paths generalizing fs writes with
  | nil => simp
  | cons p ps ih =>
    rw [List.foldl_cons]
    by_cases hrem : removable p
    · have hstep : removeStep removable (fs, writes) p = (fs.erase p, writes) := by
        simp [removeStep, removeAttempt, hrem]
      rw [hstep, ih]
      simp [hrem]
    · have hstep : removeStep removable (fs, writes) p = (fs, writes ++ [p]) := by
        simp [removeStep, removeAttempt, hrem]
      rw [hstep, ih]
      simp [hrem]

theorem removeArtifacts_go_fs (removable : FsPath → Bool)
    (paths : List FsPath) (fs : List FsPath) (writes : List FsPath)
    (hnd : fs.Nodup) :
    (paths.foldl (removeStep removable) (fs, writes)).1 =
      fs.filter (fun q => !(decide (q ∈ paths) && removable q)) := by
  induction paths generalizing fs writes with
  | nil => simp
  | cons p ps ih =>
    rw [List.foldl_cons]
    by_cases hrem : removable p
    · have hstep : removeStep removable (fs, writes) p = (fs.erase p, writes) := by
        simp [removeStep, removeAttempt, hrem]
      have herase : fs.erase p = fs.filter (fun x => x != p) :=
        hnd.erase_eq_filter p
      rw [hstep, ih (fs.erase p) writes (hnd.erase p), herase,
        List.filter_filter]
      apply List.filter_congr
      intro q _
      by_cases hq : q = p
      · subst hq
        simp [hrem]
      · simp [hq]
    · have hstep : removeStep removable (fs, writes) p = (fs, writes ++ [p]) := by
        simp [removeStep, removeAttempt, hrem]
      rw [hstep, ih fs (writes ++ [p]) hnd]
      apply List.filter_congr
      intro q _
      by_cases hq : q = p
      · subst hq
        simp [hrem]
      · simp [hq]

/-- C2: single-file multi-track finalization cleanup. For a storage state
without duplicate paths where the merged artifact's resolved path is fresh
(distinct from every existing file and every intermediate): if every
intermediate per-track file (temp files and segment files) can be removed,
finalization succeeds, the merged artifact is kept and no intermediate
survives; if any removal fails, finalization throws, no saved path is
reported, the reported `failedCleanupPaths` are exactly the un-removable
intermediates, and the just-written merged artifact is rolled back
(removed, provided its own removal succeeds) — so the merged artifact
never silently coexists with surviving intermediates. -/
theorem saveMergedArtifact_cleanup_rollback (removable : FsPath → Bool)
    (fs : List FsPath) (targets : List RecordingTarget) (finalPath : FsPath)
    (hndfs : fs.Nodup) (hfresh : finalPath ∉ fs)
    (hint : finalPath ∉ intermediatePaths targets) :
    ((∀ p ∈ intermediatePaths targets, removable p = true) →
      (saveMergedArtifact removable fs targets finalPath).threwError = false ∧
      (saveMergedArtifact removable fs targets finalPath).savedPath =
        some finalPath ∧
      finalPath ∈ (saveMergedArtifact removable fs targets finalPath).fs ∧
      ∀ p ∈ intermediatePaths targets,
        p ∉ (saveMergedArtifact removable fs targets finalPath).fs) ∧
    ((∃ p ∈ intermediatePaths targets, removable p = false) →
      (saveMergedArtifact removable fs targets finalPath).threwError = true ∧
      (saveMergedArtifact removable fs targets finalPath).savedPath = none ∧
      (saveMergedArtifact removable fs targets finalPath).failedCleanupPaths
        = (intermediatePaths targets).filter (fun p => !removable p) ∧
      (removable finalPath = true →
        finalPath ∉ (saveMergedArtifact removable fs targets finalPath).fs)) := by
  have hnd1 : (fs ++ [finalPath]).Nodup := by
    simp [List.nodup_append, hndfs, hfresh]
  have hfail : (removeTemporaryArtifacts removable (fs ++ [finalPath])
      (intermediatePaths targets)).2 =
      (intermediatePaths targets).filter (fun p => !removable p) := by
    simpa [removeTemporaryArtifacts] using
      removeArtifacts_go_failed removable (intermediatePaths targets)
        (fs ++ [finalPath]) []
  have hfs2 : (removeTemporaryArtifacts removable (fs ++ [finalPath])
      (intermediatePaths targets)).1 =
      (fs ++ [finalPath]).filter
        (fun q => !(decide (q ∈ intermediatePaths targets) && removable q)) :=
    removeArtifacts_go_fs removable (intermediatePaths targets)
      (fs ++ [finalPath]) [] hnd1
  constructor
  · intro hall
    have hempt : (intermediatePaths targets).filter
        (fun p => !removable p) = [] := by
      apply List.filter_eq_nil_iff.mpr
      intro p hp
      simp [hall p hp]
    have hfail2 : (removeTemporaryArtifacts removable (fs ++ [finalPath])
        (intermediatePaths targets)).2 = [] := by
      rw [hfail]
      exact hempt
    have hr : saveMergedArtifact removable fs targets finalPath =
        ⟨(removeTemporaryArtifacts removable (fs ++ [finalPath])
          (intermediatePaths targets)).1, some finalPath, [], false⟩ := by
      simp [saveMergedArtifact, hfail2]
    rw [hr]
    refine ⟨rfl, rfl, ?_, ?_⟩
    · rw [hfs2]
      apply List.mem_filter.mpr
      refine ⟨by simp, ?_⟩
      simp [hint]
    · intro p hp
      rw [hfs2]
      intro hmem
      have := (List.mem_filter.mp hmem).2
      simp [hp, hall p hp] at this
  · rintro ⟨p0, hp0, hp0f⟩
    have hne : (removeTemporaryArtifacts removable (fs ++ [finalPath])
        (intermediatePaths targets)).2 ≠ [] := by
      rw [hfail]
      apply List.ne_nil_of_mem (a := p0)
      exact List.mem_filter.mpr ⟨hp0, by simp [hp0f]⟩
    have hr : saveMergedArtifact removable fs targets finalPath =
        ⟨rollbackFinalFile removable
          (removeTemporaryArtifacts removable (fs ++ [finalPath])
            (intermediatePaths targets)).1 finalPath, none,
          (removeTemporaryArtifacts removable (fs ++ [finalPath])
            (intermediatePaths targets)).2, true⟩ := by
      simp [saveMergedArtifact, hne]
    rw [hr]
    refine ⟨rfl, rfl, hfail, ?_⟩
    intro hremf
    have hndc : (removeTemporaryArtifacts removable (fs ++ [finalPath])
        (intermediatePaths targets)).1.Nodup := by
      rw [hfs2]
      exact hnd1.filter _
    simp only [rollbackFinalFile, removeAttempt, hremf, if_true]
    intro hmem
    exact ((hndc.mem_erase_iff).mp hmem).1 rfl

/-- C2 (witness): two desktop tracks whose second temp file cannot be
removed — finalization throws, reports exactly that path, and the merged
artifact is rolled back. -/
theorem saveMergedArtifact_cleanup_rollback_witness :
    (saveMergedArtifact (fun p => p ≠ "track2.partial")
        ["track1.partial", "track2.partial"]
        [⟨"b1", "s1", some "track1.partial", [], 0, 0, []⟩,
         ⟨"b2", "s2", some "track2.partial", [], 0, 0, []⟩]
        "merged.webm").threwError = true ∧
    "merged.webm" ∉ (saveMergedArtifact (fun p => p ≠ "track2.partial")
        ["track1.partial", "track2.partial"]
        [⟨"b1", "s1", some "track1.partial", [], 0, 0, []⟩,
         ⟨"b2", "s2", some "track2.partial", [], 0, 0, []⟩]
        "merged.webm").fs :=
  have h := (saveMergedArtifact_cleanup_rollback
    (fun p => p ≠ "track2.partial")
    ["track1.partial", "track2.partial"]
    [⟨"b1", "s1", some "track1.partial", [], 0, 0, []⟩,
     ⟨"b2", "s2", some "track2.partial", [], 0, 0, []⟩]
    "merged.webm" (by decide) (by decide) (by decide)).2
    ⟨"track2.partial", by decide, by decide⟩
  ⟨h.1, h.2.2.2 (by decide)⟩

/-- C5 (counterexample): two desktop tracks in `'multiple'` mode where the
first track's rename fails. `saveRecording`'s loop throws immediately: the
error carries the storage state at the failure — track 2's temp file
`b.partial` is still there, unfinalized, and its final artifact `final1`
was never created. The remaining track was *not* finalized and no
individual per-track failure list is reported, contradicting the claim. -/
theorem saveMultiple_abort_counterexample :
    saveMultiple (fun src _ => src ≠ "a.partial")
        (fun i => "final" ++ toString i)
        ["a.partial", "b.partial"]
        [⟨"b1", "s1", some "a.partial", [], 0, 0, []⟩,
         ⟨"b2", "s2", some "b.partial", [], 0, 0, []⟩] =
      .error (⟨"a.partial", "final0"⟩, ["a.partial", "b.partial"]) ∧
    "b.partial" ∈ ["a.partial", "b.partial"] ∧
    "final1" ∉ ["a.partial", "b.partial"] := by
  refine ⟨rfl, by decide, by decide⟩

/-- C5 (amended): the `'multiple'` loop is sequential and fail-fast. With
a healthy rename backend every temp-bearing track is finalized, producing
exactly one resolved final link per such track in track order; but when
the track at the head of the remaining list fails to rename, the loop
aborts at once with that single error and the storage state as of the
failure — earlier tracks keep their already-renamed artifacts (they are in
that state), while the failing and all later tracks stay unfinalized. -/
theorem saveMultiple_fail_fast
    (renameOk₁ renameOk₂ : FsPath → FsPath → Bool)
    (resolvePath : Nat → FsPath) (fs fs₂ links₂ : List FsPath) (i i₂ : Nat)
    (targets : List RecordingTarget) (badTarget : RecordingTarget)
    (rest : List RecordingTarget) (temp : FsPath)
    (hok : ∀ src dst, renameOk₁ src dst = true)
    (htemp : badTarget.tempFilePath = some temp)
    (hfail : renameOk₂ temp (resolvePath i₂) = false) :
    (∀ links, ∃ fs', saveMultipleGo renameOk₁ resolvePath fs links i targets
        = .ok (fs', links ++ expectedLinks resolvePath i targets)) ∧
    saveMultipleGo renameOk₂ resolvePath fs₂ links₂ i₂ (badTarget :: rest)
      = .error (⟨temp, resolvePath i₂⟩, fs₂) := by
  constructor
  · have ha : ∀ (ts : List RecordingTarget) (fsx : List FsPath)
        (links : List FsPath) (j : Nat),
        ∃ fs', saveMultipleGo renameOk₁ resolvePath fsx links j ts
          = .ok (fs', links ++ expectedLinks resolvePath j ts) := by
      intro ts
      induction ts with
      | nil =>
        intro fsx links j
        exact ⟨fsx, by simp [saveMultipleGo, expectedLinks]⟩
      | cons t rest' ih =>
        intro fsx links j
        cases htf : t.tempFilePath with
        | none =>
          obtain ⟨fs', hfs'⟩ := ih fsx (links ++ []) (j + 1)
          refine ⟨fs', ?_⟩
          simp only [saveMultipleGo, finalizeTrackFile, htf, expectedLinks]
          rw [hfs']
          simp
        | some temp' =>
          obtain ⟨fs', hfs'⟩ :=
            ih ((fsx.erase temp') ++ [resolvePath j])
              (links ++ [resolvePath j]) (j + 1)
          refine ⟨fs', ?_⟩
          simp only [saveMultipleGo, finalizeTrackFile, htf,
            hok temp' (resolvePath j), if_true, expectedLinks]
          rw [hfs']
          simp
    exact fun links => ha targets fs links i
  · simp [saveMultipleGo, finalizeTrackFile, htemp, hfail]

/-- C5 (witness): the amended theorem applied to a healthy two-track run
(both finalized, links `f0`, `f1`) and to a failing single-track run at
index 5 (immediate abort carrying the untouched storage state). -/
theorem saveMultiple_fail_fast_witness :
    (∃ fs', saveMultipleGo (fun _ _ => true) (fun i => "f" ++ toString i)
        ["a.partial", "b.partial"] [] 0
        [⟨"b1", "s1", some "a.partial", [], 0, 0, []⟩,
         ⟨"b2", "s2", some "b.partial", [], 0, 0, []⟩] =
      .ok (fs', ["f0", "f1"])) ∧
    saveMultipleGo (fun _ _ => false) (fun i => "f" ++ toString i)
        ["c.partial"] [] 5 [⟨"b3", "s3", some "c.partial", [], 0, 0, []⟩] =
      .error (⟨"c.partial", "f5"⟩, ["c.partial"]) := by
  have h := saveMultiple_fail_fast (fun _ _ => true) (fun _ _ => false)
    (fun i => "f" ++ toString i) ["a.partial", "b.partial"] ["c.partial"]
    [] 0 5
    [⟨"b1", "s1", some "a.partial", [], 0, 0, []⟩,
     ⟨"b2", "s2", some "b.partial", [], 0, 0, []⟩]
    ⟨"b3", "s3", some "c.partial", [], 0, 0, []⟩ [] "c.partial"
    (fun _ _ => rfl) rfl rfl
  refine ⟨?_, h.2⟩
  obtain ⟨fs', hfs'⟩ := h.1 []
  refine ⟨fs', ?_⟩
  rw [hfs']
  have hlinks : ([] : List FsPath) ++ expectedLinks
      (fun i => "f" ++ toString i) 0
      [⟨"b1", "s1", some "a.partial", [], 0, 0, []⟩,
       ⟨"b2", "s2", some "b.partial", [], 0, 0, []⟩] = ["f0", "f1"] := by
    decide
  rw [hlinks]

/-- C7 (counterexample): with `rec.webm` and `rec_1.webm` already existing,
`resolveUniquePath("rec.webm")` returns `d/rec_1_2.webm` — the loop
rewrites the *current* candidate each iteration, so the third candidate is
the compound-suffixed `rec_1_2.webm`, not the claimed `rec_2.webm`. -/
theorem resolveUniquePath_suffix_counterexample :
    resolveUniquePath (fun p => p = "d/rec.webm" || p = "d/rec_1.webm")
        "d" "rec.webm" 10 = some "d/rec_1_2.webm" ∧
    candidateAt (sanitizeFileName "rec.webm") 2 = "rec_1_2.webm" ∧
    "d/rec_1_2.webm" ≠ "d/rec_2.webm" := by
  refine ⟨by decide, by decide, by decide⟩

theorem sanitizeFileName_forbidden_free (s : String) :
    ∀ c ∈ (sanitizeFileName s).data, isForbiddenChar c = false := by
  intro c hc
  have hmem : c ∈ s.data.map replaceForbidden := hc
  obtain ⟨x, _, hcx⟩ := List.mem_map.mp hmem
  by_cases hf : isForbiddenChar x = true
  · rw [← hcx]
    simp [replaceForbidden, hf]
    decide
  · rw [← hcx]
    simp only [replaceForbidden, hf, if_false, if_neg hf]
    simpa using hf

theorem resolveUniquePathGo_spec (pathExists : FsPath → Bool)
    (baseDirectory : String) (s0 : String) (p : FsPath) :
    ∀ (fuel k : Nat),
      resolveUniquePathGo pathExists baseDirectory (candidateAt s0 k)
          (k + 1) fuel = some p →
      pathExists p = false ∧
      ∃ m, k ≤ m ∧ m < k + fuel ∧
        p = joinPath baseDirectory (candidateAt s0 m) ∧
        ∀ j, k ≤ j → j < m →
          pathExists (joinPath baseDirectory (candidateAt s0 j)) = true := by
  intro fuel
  induction fuel with
  | zero =>
    intro k h
    simp [resolveUniquePathGo] at h
  | succ fuel ih =>
    intro k h
    rw [resolveUniquePathGo] at h
    by_cases hex : pathExists (joinPath baseDirectory (candidateAt s0 k)) = true
    · rw [if_pos hex] at h
      have hnext : nextCandidate (candidateAt s0 k) (k + 1) =
          candidateAt s0 (k + 1) := rfl
      rw [hnext] at h
      obtain ⟨hpe, m, hkm, hmf, hp, hall⟩ := ih (k + 1) h
      refine ⟨hpe, m, by omega, by omega, hp, ?_⟩
      intro j hkj hjm
      by_cases hjk : j = k
      · subst hjk
        exact hex
      · exact hall j (by omega) hjm
    · rw [if_neg hex] at h
      have hp : joinPath baseDirectory (candidateAt s0 k) = p :=
        Option.some.inj h
      have hex' : pathExists (joinPath baseDirectory (candidateAt s0 k))
          = false := by
        simpa using hex
      refine ⟨hp ▸ hex', k, le_refl k, by omega, hp.symm, ?_⟩
      intro j hkj hjk
      omega

/-- C7 (amended): `resolveUniquePath` sanitizes the forbidden filesystem
characters out of the file name before probing, and whenever it returns a
path that path fails the existence check; the candidates it probes are, in
order, the sanitized name followed by *accumulating* numeric suffixes
`name`, `name_1`, `name_1_2`, `name_1_2_3`, … (each retry appends the next
counter to the previous candidate's stem, producing compound suffixes
rather than the claimed `name_2`, `name_3` pattern), and the returned path
is the first candidate in that sequence whose existence check is false. -/
theorem resolveUniquePath_amended (pathExists : FsPath → Bool)
    (baseDirectory : String) (fileName : String) (fuel : Nat) (p : FsPath)
    (h : resolveUniquePath pathExists baseDirectory fileName fuel = some p) :
    pathExists p = false ∧
    (∀ c ∈ (sanitizeFileName fileName).data, isForbiddenChar c = false) ∧
    ∃ m, m < fuel ∧
      p = joinPath baseDirectory
        (candidateAt (sanitizeFileName fileName) m) ∧
      ∀ j, j < m →
        pathExists (joinPath baseDirectory
          (candidateAt (sanitizeFileName fileName) j)) = true := by
  have h0 : resolveUniquePathGo pathExists baseDirectory
      (candidateAt (sanitizeFileName fileName) 0) (0 + 1) fuel = some p := by
    simpa [resolveUniquePath, candidateAt] using h
  obtain ⟨hpe, m, _, hmf, hp, hall⟩ :=
    resolveUniquePathGo_spec pathExists baseDirectory
      (sanitizeFileName fileName) p fuel 0 h0
  exact ⟨hpe, sanitizeFileName_forbidden_free fileName,
    m, by omega, hp, fun j hj => hall j (by omega) hj⟩

/-- C7 (witness): the amended theorem applied to a vault containing only
`d/rec.webm`: the resolved path `d/rec_1.webm` does not exist, the
sanitized name is clean, and it is the first non-colliding candidate. -/
theorem resolveUniquePath_amended_witness :
    (fun q => q = "d/rec.webm" : FsPath → Bool) "d/rec_1.webm" = false ∧
    (∀ c ∈ (sanitizeFileName "rec.webm").data, isForbiddenChar c = false) ∧
    ∃ m, m < 5 ∧
      ("d/rec_1.webm" : FsPath) = joinPath "d"
        (candidateAt (sanitizeFileName "rec.webm") m) ∧
      ∀ j, j < m →
        (fun q => q = "d/rec.webm" : FsPath → Bool)
          (joinPath "d" (candidateAt (sanitizeFileName "rec.webm") j))
          = true :=
  resolveUniquePath_amended (fun q => q = "d/rec.webm") "d" "rec.webm" 5
    "d/rec_1.webm" (by decide)

end RecordingManager
